import Mathlib

/-!
Verification development for the rrweb-uploader server.

The embedding below follows the source under src/.  Events are the JSON
records exchanged with the client: the merge engine only ever inspects the
top-level timestamp field and a possible nested data.timestamp field, so an
event is modelled by those two locations plus opaque remainders.  The
in-memory session registry (a JavaScript Map from session id to a session
object) is modelled as a function from strings to optional sessions.
Wall-clock reads (Date.now) and the outcome of the Google Drive calls are
passed in as explicit parameters so that every handler is a pure function.
-/

namespace Rrweb

/-- The data field of an rrweb event as the merge code distinguishes it:
absent (undefined/null, falsy), a non-object value (typeof is not "object"),
or an object carrying an optional timestamp key plus its remaining
properties, kept opaque. -/
inductive DataField where
  | absent : DataField
  | prim : Int → DataField
  | obj : Option Int → String → DataField
deriving DecidableEq

/-- One rrweb event record: optional top-level timestamp, the data field,
and the remaining properties kept opaque.  Object spread in the source
copies the remaining properties unchanged. -/
structure EventRec where
  timestamp : Option Int
  data : DataField
  rest : String
deriving DecidableEq

/-- Embeds the source expression e.timestamp ?? e.data?.timestamp ?? fallback
(src/unnamed/part_003 lines 400-402 and 411). -/
def tsOrElse (e : EventRec) (fallback : Int) : Int :=
  match e.timestamp with
  | some t => t
  | none =>
    match e.data with
    | .obj (some t) _ => t
    | _ => fallback

/-- Embeds the copy made for each record (src/unnamed/part_003 lines
404-407): object spread with the top-level timestamp replaced, then, when
data is an object, data spread with its timestamp key set to the same
value. -/
def rewriteEvent (t : Int) (e : EventRec) : EventRec :=
  match e.data with
  | .obj _ r => { timestamp := some t, data := .obj (some t) r, rest := e.rest }
  | d => { timestamp := some t, data := d, rest := e.rest }

/-- Timestamp read by the final sort comparator a.timestamp - b.timestamp;
every merged record has been given a concrete top-level timestamp, so the
default is never observed on merge output. -/
def outTs (e : EventRec) : Int := e.timestamp.getD 0

/-- Ordering used by the final sort: comparator a.timestamp - b.timestamp. -/
def tsLe (a b : EventRec) : Prop := outTs a ≤ outTs b

instance : DecidableRel tsLe := fun a b => inferInstanceAs (Decidable (outTs a ≤ outTs b))

instance : IsTotal EventRec tsLe := ⟨fun a b => le_total (outTs a) (outTs b)⟩

instance : IsTrans EventRec tsLe := ⟨fun _ _ _ h h2 => le_trans h h2⟩

/-- One iteration of the chunk loop of mergeRrwebEvents
(src/unnamed/part_003 lines 397-413): an empty chunk is skipped, otherwise
the base is taken from the first record, every record is rewritten to
offset + (its timestamp - base), and the offset advances by
(last timestamp - base) + 1000. -/
def mergeChunkStep (now offset : Int) (evs : List EventRec) : List EventRec × Int :=
  match evs with
  | [] => ([], offset)
  | e0 :: _ =>
    let base := tsOrElse e0 now
    let out := evs.map (fun e => rewriteEvent (offset + (tsOrElse e base - base)) e)
    let lastT := tsOrElse (evs.getLastD e0) base
    (out, offset + (lastT - base) + 1000)

/-- Embeds mergeRrwebEvents (src/unnamed/part_003 lines 394-416).  The
caller-facing guard mapping a missing or non-array events field to an empty
array is reflected by taking each chunk as the resulting list.  Date.now()
is the explicit parameter now.  The final Array.prototype.sort with
comparator a.timestamp - b.timestamp is a stable sort by timestamp,
modelled by the stable List.insertionSort under tsLe. -/
def mergeRrwebEvents (now : Int) (chunks : List (List EventRec)) : List EventRec :=
  let p := chunks.foldl
    (fun acc chunk =>
      let r := mergeChunkStep now acc.2 chunk
      (acc.1 ++ r.1, r.2))
    (([] : List EventRec), (0 : Int))
  p.1.insertionSort tsLe

/-- One in-memory session object (src/unnamed/part_003 lines 244-270):
start creates events, meta, startedAt, token; a chunk-created session has
only events and startedAt, modelled with empty meta and no token.  The
lastChunkAt field is written by the chunk routes. -/
structure SessionRec where
  events : List EventRec
  meta : List (String × String)
  startedAt : Int
  lastChunkAt : Option Int
  token : Option String
deriving DecidableEq

/-- The sessions Map (src/unnamed/part_003 line 238, src/server.js line 96),
modelled extensionally: each key is bound to at most one session. -/
abbrev Registry := String → Option SessionRec

/-- Embeds checkSecret (src/unnamed/part_003 lines 231-236): the request
passes only when the configured secret is non-empty and the incoming header
equals it; an absent header never matches. -/
def checkSecret (secret : String) (incoming : Option String) : Bool :=
  if secret = "" then false else incoming = some secret

/-- Result of the header-authenticated chunk route. -/
inductive ChunkResult where
  | unauthorized : ChunkResult
  | badRequest : ChunkResult
  | ok : ChunkResult
deriving DecidableEq

/-- Embeds app.post /replay/chunk (src/server.js lines 115-132, identical in
src/unnamed/part_003 lines 260-270): secret check, then a 400 when the
sessionId is falsy or events is not an array, then auto-creation of a bare
session followed by push of all events and a refresh of lastChunkAt. -/
def chunkRoute (secret : String) (incoming : Option String) (reg : Registry)
    (sessionId : Option String) (events : Option (List EventRec)) (now : Int) :
    ChunkResult × Registry :=
  if checkSecret secret incoming = false then (.unauthorized, reg)
  else
    match sessionId, events with
    | some sid, some evs =>
      if sid = "" then (.badRequest, reg)
      else
        let s := (reg sid).getD
          { events := [], meta := [], startedAt := now, lastChunkAt := none, token := none }
        let s2 := { s with events := s.events ++ evs, lastChunkAt := some now }
        (.ok, fun k => if k = sid then some s2 else reg k)
    | _, _ => (.badRequest, reg)

/-- Result of the lenient finish route of src/unnamed/part_003 lines 273-312
and src/server.js lines 134-180. -/
inductive FinishResult where
  | unauthorized : FinishResult
  | badRequest : FinishResult
  | driveNotConfigured : FinishResult
  | uploaded : Nat → FinishResult
  | uploadError : FinishResult
deriving DecidableEq

/-- Session value substituted by the finish handlers for an absent id:
the literal default object with empty events and meta. -/
def defaultSession : SessionRec :=
  { events := [], meta := [], startedAt := 0, lastChunkAt := none, token := none }

/-- Embeds app.post /replay/finish (src/server.js lines 134-180, identical
logic in src/unnamed/part_003 lines 273-312): secret check, 400 on missing
sessionId, 500 when drive is not configured, otherwise the session is read
with the empty default for an absent id, the Drive upload is awaited
(outcome publishOk), and only after a successful upload is the session
deleted; a failed upload is caught and answered 500 with the registry
untouched. -/
def finishRoute (secret : String) (incoming : Option String) (reg : Registry)
    (sessionId : Option String) (driveConfigured publishOk : Bool) :
    FinishResult × Registry :=
  if checkSecret secret incoming = false then (.unauthorized, reg)
  else
    match sessionId with
    | none => (.badRequest, reg)
    | some sid =>
      if sid = "" then (.badRequest, reg)
      else if driveConfigured = false then (.driveNotConfigured, reg)
      else
        let s := (reg sid).getD defaultSession
        if publishOk then
          (.uploaded s.events.length, fun k => if k = sid then none else reg k)
        else (.uploadError, reg)

/-- Result of the strict finish variant of src/unnamed/part_000 lines
117-142 (same logic at src/unnamed/part_003 lines 113-139), which rejects
an absent session with 400 unknown session. -/
inductive StrictFinishResult where
  | unauthorized : StrictFinishResult
  | badRequest : StrictFinishResult
  | unknownSession : StrictFinishResult
  | uploaded : StrictFinishResult
  | uploadError : StrictFinishResult
deriving DecidableEq

/-- Embeds the strict finish variant (src/unnamed/part_000 lines 117-142):
secret check, 400 on missing sessionId, 400 unknown session when the id is
absent from the registry, then upload followed by deletion on success. -/
def finishStrict (secret : String) (incoming : Option String) (reg : Registry)
    (sessionId : Option String) (publishOk : Bool) :
    StrictFinishResult × Registry :=
  if checkSecret secret incoming = false then (.unauthorized, reg)
  else
    match sessionId with
    | none => (.badRequest, reg)
    | some sid =>
      if sid = "" then (.badRequest, reg)
      else
        match reg sid with
        | none => (.unknownSession, reg)
        | some _ =>
          if publishOk then (.uploaded, fun k => if k = sid then none else reg k)
          else (.uploadError, reg)

/-- JavaScript falsiness of the incoming token string: absent or empty. -/
def tokenFalsy : Option String → Bool
  | none => true
  | some t => t = ""

/-- Embeds getSessionByToken (src/unnamed/part_003 lines 318-323): look the
sessionId up, then fail when the token is falsy or differs from the token
stored on that session. -/
def getSessionByToken (reg : Registry) (sessionId token : Option String) :
    Option SessionRec :=
  match sessionId.bind reg with
  | none => none
  | some s => if tokenFalsy token = true ∨ s.token ≠ token then none else some s

/-- Embeds app.post /replay/chunk-beacon (src/unnamed/part_003 lines
325-339): token authentication via getSessionByToken, then push of the
events when they form a non-empty array, and a refresh of lastChunkAt. -/
def chunkBeacon (reg : Registry) (sessionId token : Option String)
    (events : Option (List EventRec)) (now : Int) : ChunkResult × Registry :=
  match getSessionByToken reg sessionId token with
  | none => (.unauthorized, reg)
  | some s =>
    let s1 :=
      match events with
      | some evs => if evs = [] then s else { s with events := s.events ++ evs }
      | none => s
    let s2 := { s1 with lastChunkAt := some now }
    (.ok, fun k => if some k = sessionId then some s2 else reg k)

/-- Embeds app.post /replay/finish-beacon (src/unnamed/part_003 lines
341-383): token authentication, drive-configuration check, upload awaited,
deletion only after a successful upload. -/
def finishBeacon (reg : Registry) (sessionId token : Option String)
    (driveConfigured publishOk : Bool) : FinishResult × Registry :=
  match getSessionByToken reg sessionId token with
  | none => (.unauthorized, reg)
  | some s =>
    if driveConfigured = false then (.driveNotConfigured, reg)
    else if publishOk then
      (.uploaded s.events.length, fun k => if some k = sessionId then none else reg k)
    else (.uploadError, reg)

/-- Events buffered for an id: the events of its session, empty when the id
is absent. -/
def buffered (reg : Registry) (sid : String) : List EventRec :=
  ((reg sid).map SessionRec.events).getD []

/-- A finite sequence of header-authenticated chunk calls for one id,
applied in call order. -/
def chunkCalls (secret : String) (incoming : Option String) (reg : Registry)
    (sid : String) (batches : List (List EventRec)) (now : Int) : Registry :=
  batches.foldl
    (fun r evs => (chunkRoute secret incoming r (some sid) (some evs) now).2) reg

/-- Modelled from the spec: the idle window of the Session Registry
(idleTimeoutMs, default 1800000 ms).  No sweep code exists under src/; the
sessions only record lastChunkAt / lastTs, which nothing reads. -/
def idleTimeoutMs : Int := 1800000

/-- Last activity of a session: the last chunk time when one was recorded,
the start time otherwise. -/
def lastActivity (s : SessionRec) : Int := s.lastChunkAt.getD s.startedAt

/-- Modelled from the spec: sweepExpired(now) of section 4.1, absent from
src/ — removes every session whose last activity is older than the idle
window, silently. -/
def sweepExpired (reg : Registry) (now : Int) : Registry :=
  fun k =>
    match reg k with
    | some s => if now - lastActivity s > idleTimeoutMs then none else some s
    | none => none

/-- Distinctness of the minted session tokens across the registry: two
sessions carrying the same present token are the same binding.  This is the
well-formedness the unguessable makeToken output is meant to provide. -/
def TokensDistinct (reg : Registry) : Prop :=
  ∀ k1 k2 s1 s2 t, reg k1 = some s1 → reg k2 = some s2 →
    s1.token = some t → s2.token = some t → k1 = k2

/-- A merge-output record is well stamped when its top-level timestamp is a
concrete value and, whenever its data field is an object, the timestamp key
of that object equals the top-level one. -/
def WellStamped (e : EventRec) : Prop :=
  e.timestamp = some (outTs e)
  ∧ ∀ dts r, e.data = .obj dts r → dts = some (outTs e)

/-- A concrete session used to evaluate the registry theorems: one buffered
event and the minted token t1. -/
def sessA : SessionRec :=
  { events := [{ timestamp := some 1, data := .absent, rest := "" }],
    meta := [], startedAt := 0, lastChunkAt := none, token := some "t1" }

/-- A concrete registry holding sessA under the id s1. -/
def reg1 : Registry := fun k => if k = "s1" then some sessA else none

end Rrweb

namespace Rrweb

/-- C1: merging chunk A with records timestamped 0 and 500 and chunk B with
records timestamped 100 and 900 yields four records with final timestamps
0, 500, 1500, 2300: the base 100 of B is subtracted from each of its
timestamps and the result shifted by the running offset 500 + 1000 = 1500. -/
theorem merge_gap_invariant_example :
    (mergeRrwebEvents 0
      [[{ timestamp := some 0, data := .absent, rest := "a0" },
        { timestamp := some 500, data := .absent, rest := "a1" }],
       [{ timestamp := some 100, data := .absent, rest := "b0" },
        { timestamp := some 900, data := .absent, rest := "b1" }]]).map outTs
      = [0, 500, 1500, 2300] := by decide

/-- Helper: each rewritten record carries the timestamp it was rewritten to. -/
theorem outTs_rewriteEvent (t : Int) (e : EventRec) : outTs (rewriteEvent t e) = t := by
  obtain ⟨ts, d, r⟩ := e
  cases d <;> simp [rewriteEvent, outTs]

/-- Helper: the chunk step emits exactly one record per input record. -/
theorem mergeChunkStep_fst_length (now off : Int) (evs : List EventRec) :
    (mergeChunkStep now off evs).1.length = evs.length := by
  cases evs with
  | nil => rfl
  | cons e0 rest => simp [mergeChunkStep]

/-- Helper: the chunk fold of mergeRrwebEvents emits one record per input
record of every chunk. -/
theorem mergeFold_fst_length (now : Int) (chunks : List (List EventRec)) :
    ∀ acc : List EventRec × Int,
      ((chunks.foldl
          (fun acc chunk =>
            let r := mergeChunkStep now acc.2 chunk
            (acc.1 ++ r.1, r.2)) acc).1).length
        = acc.1.length + (chunks.map List.length).sum := by
  induction chunks with
  | nil => intro acc; simp
  | cons c cs ih =>
    intro acc
    simp only [List.foldl_cons, List.map_cons, List.sum_cons]
    rw [ih]
    simp [mergeChunkStep_fst_length]
    omega

/-- C5: the sequence of final timestamps of the merge output is
non-decreasing, for every list of input chunks, whatever the internal order
of each chunk — the final sort step enforces it. -/
theorem merge_output_timestamps_sorted (now : Int) (chunks : List (List EventRec)) :
    List.Sorted (fun a b : Int => a ≤ b) ((mergeRrwebEvents now chunks).map outTs) := by
  have h : List.Sorted tsLe (mergeRrwebEvents now chunks) :=
    List.sorted_insertionSort tsLe _
  exact h.map outTs (fun _ _ hab => hab)

/-- C8: the merge never drops or deduplicates records — the output length
is the sum of the chunk lengths — and an empty chunk contributes no records
and does not advance the running offset: inserting it anywhere leaves the
merge output unchanged. -/
theorem merge_never_drops_records (now : Int) (chunks pre post : List (List EventRec)) :
    (mergeRrwebEvents now chunks).length = (chunks.map List.length).sum
    ∧ mergeRrwebEvents now (pre ++ [] :: post) = mergeRrwebEvents now (pre ++ post) := by
  constructor
  · show (List.insertionSort tsLe _).length = _
    rw [List.length_insertionSort]
    rw [mergeFold_fst_length]
    simp
  · unfold mergeRrwebEvents
    rw [List.foldl_append, List.foldl_cons, List.foldl_append]
    simp [mergeChunkStep]

/-- Helper: final timestamps of the records emitted for one chunk, from the
list of its input top-level timestamps. -/
theorem map_outTs_rewrite (off b : Int) :
    ∀ (evs : List EventRec) (tss : List Int),
      evs.map EventRec.timestamp = tss.map some →
      (evs.map (fun e => rewriteEvent (off + (tsOrElse e b - b)) e)).map outTs
        = tss.map (fun t => off + (t - b)) := by
  intro evs
  induction evs with
  | nil =>
    intro tss h
    cases tss with
    | nil => rfl
    | cons t ts => simp at h
  | cons e es ih =>
    intro tss h
    cases tss with
    | nil => simp at h
    | cons t ts =>
      simp only [List.map_cons, List.cons.injEq] at h
      obtain ⟨h1, h2⟩ := h
      simp only [List.map_cons]
      rw [ih ts h2]
      have hts : tsOrElse e b = t := by simp [tsOrElse, h1]
      rw [outTs_rewriteEvent, hts]

/-- C7: merging a single chunk whose record timestamps are present and
already ascending from zero yields output records whose final timestamps
equal the input timestamps (running offset 0, base 0). -/
theorem merge_single_chunk_identity (now : Int) (evs : List EventRec) (tss : List Int)
    (hmap : evs.map EventRec.timestamp = tss.map some)
    (hhead : tss.head? = some 0)
    (hsorted : List.Sorted (fun a b : Int => a ≤ b) tss) :
    (mergeRrwebEvents now [evs]).map outTs = tss := by
  cases evs with
  | nil =>
    cases tss with
    | nil => simp at hhead
    | cons t ts => simp at hmap
  | cons e0 es =>
    cases tss with
    | nil => simp at hmap
    | cons t0 ts =>
      have ht0 : t0 = 0 := by simpa using hhead
      subst ht0
      have h0 : e0.timestamp = some 0 := by
        have := congrArg List.head? hmap
        simpa using this
      have hbase : tsOrElse e0 now = 0 := by simp [tsOrElse, h0]
      have hout :
          ((e0 :: es).map (fun e => rewriteEvent (0 + (tsOrElse e 0 - 0)) e)).map outTs
            = (0 :: ts).map (fun t => 0 + (t - 0)) :=
        map_outTs_rewrite 0 0 (e0 :: es) (0 :: ts) hmap
      have hid : ((0 : Int) :: ts).map (fun t => 0 + (t - 0)) = 0 :: ts := by
        simp
      have houtTs :
          ((e0 :: es).map (fun e => rewriteEvent (0 + (tsOrElse e 0 - 0)) e)).map outTs
            = 0 :: ts := hout.trans hid
      have hsortedOut :
          List.Sorted tsLe
            ((e0 :: es).map (fun e => rewriteEvent (0 + (tsOrElse e 0 - 0)) e)) := by
        show List.Pairwise (fun a b => outTs a ≤ outTs b) _
        rw [← List.pairwise_map]
        rw [houtTs]
        exact hsorted
      show List.map outTs (List.insertionSort tsLe _) = _
      have hfold :
          ([([] : List EventRec)].foldl
            (fun acc chunk =>
              let r := mergeChunkStep now acc.2 chunk
              (acc.1 ++ r.1, r.2)) (([] : List EventRec), (0 : Int))).1 = [] := rfl
      calc List.map outTs
            (List.insertionSort tsLe
              (([(e0 :: es)].foldl
                (fun acc chunk =>
                  let r := mergeChunkStep now acc.2 chunk
                  (acc.1 ++ r.1, r.2)) (([] : List EventRec), (0 : Int))).1))
          = List.map outTs
              (List.insertionSort tsLe
                ((e0 :: es).map (fun e => rewriteEvent (0 + (tsOrElse e 0 - 0)) e))) := by
            simp [mergeChunkStep, hbase]
        _ = 0 :: ts := by rw [hsortedOut.insertionSort_eq, houtTs]

/-- Witness for C7 at a concrete chunk with timestamps 0 and 5. -/
theorem merge_single_chunk_identity_witness :
    (mergeRrwebEvents 42
      [[{ timestamp := some 0, data := DataField.absent, rest := "w0" },
        { timestamp := some 5, data := DataField.absent, rest := "w1" }]]).map outTs
      = [0, 5] :=
  merge_single_chunk_identity 42
    [{ timestamp := some 0, data := DataField.absent, rest := "w0" },
     { timestamp := some 5, data := DataField.absent, rest := "w1" }]
    [0, 5] (by decide) (by decide) (by decide)

/-- Helper: every record the chunk loop emits is well stamped. -/
theorem rewriteEvent_wellStamped (t : Int) (e : EventRec) :
    WellStamped (rewriteEvent t e) := by
  obtain ⟨ts, d, r⟩ := e
  cases d <;> simp [rewriteEvent, WellStamped, outTs]

/-- Helper: every record emitted for one chunk is well stamped. -/
theorem mergeChunkStep_wellStamped (now off : Int) (evs : List EventRec) :
    ∀ e2 ∈ (mergeChunkStep now off evs).1, WellStamped e2 := by
  cases evs with
  | nil => intro e2 h; simp [mergeChunkStep] at h
  | cons e0 es =>
    intro e2 h
    simp only [mergeChunkStep, List.mem_map] at h
    obtain ⟨e, _, rfl⟩ := h
    exact rewriteEvent_wellStamped _ e

/-- Helper: the chunk fold preserves well-stampedness of the accumulator. -/
theorem mergeFold_wellStamped (now : Int) (chunks : List (List EventRec)) :
    ∀ acc : List EventRec × Int, (∀ e ∈ acc.1, WellStamped e) →
      ∀ e2 ∈ (chunks.foldl
          (fun acc chunk =>
            let r := mergeChunkStep now acc.2 chunk
            (acc.1 ++ r.1, r.2)) acc).1, WellStamped e2 := by
  induction chunks with
  | nil => intro acc hacc; simpa using hacc
  | cons c cs ih =>
    intro acc hacc
    simp only [List.foldl_cons]
    refine ih _ ?_
    intro e he
    rcases List.mem_append.mp he with h | h
    · exact hacc e h
    · exact mergeChunkStep_wellStamped now acc.2 c e h

/-- C10: the per-record rewrite gives every copy the rewritten top-level
timestamp, keeps the remaining record fields, sets the timestamp key of an
object data field to the same rewritten timestamp (also when the input data
object had no timestamp key, which gains one) while keeping the remaining
data fields, and leaves a non-object data field alone; consequently every
merge-output record whose data field is an object carries the final
timestamp in both locations. -/
theorem merge_data_timestamp_rewrite :
    (∀ (t : Int) (e : EventRec),
        (rewriteEvent t e).timestamp = some t
        ∧ (rewriteEvent t e).rest = e.rest
        ∧ (∀ dts r, e.data = .obj dts r → (rewriteEvent t e).data = .obj (some t) r)
        ∧ (∀ v, e.data = .prim v → (rewriteEvent t e).data = .prim v)
        ∧ (e.data = .absent → (rewriteEvent t e).data = .absent))
    ∧ (∀ (now : Int) (chunks : List (List EventRec)) (e2 : EventRec),
        e2 ∈ mergeRrwebEvents now chunks → WellStamped e2) := by
  constructor
  · intro t e
    obtain ⟨ts, d, r⟩ := e
    cases d <;> simp [rewriteEvent]
  · intro now chunks e2 h2
    have hmem : e2 ∈ (chunks.foldl
        (fun acc chunk =>
          let r := mergeChunkStep now acc.2 chunk
          (acc.1 ++ r.1, r.2)) (([] : List EventRec), (0 : Int))).1 :=
      (List.perm_insertionSort tsLe _).mem_iff.mp h2
    exact mergeFold_wellStamped now chunks _ (by intro e h; simp at h) e2 hmem

/-- Witness for C10: the rewrite at timestamp 7, and a merge-output record
whose data object gained the timestamp key. -/
theorem merge_data_timestamp_rewrite_witness :
    (rewriteEvent 7 { timestamp := some 3, data := DataField.obj none "r", rest := "q" }).timestamp
        = some 7
    ∧ WellStamped { timestamp := some 0, data := DataField.obj (some 0) "r", rest := "q" } := by
  constructor
  · exact (merge_data_timestamp_rewrite.1 7
      { timestamp := some 3, data := DataField.obj none "r", rest := "q" }).1
  · exact merge_data_timestamp_rewrite.2 0
      [[{ timestamp := some 0, data := DataField.obj none "r", rest := "q" }]]
      { timestamp := some 0, data := DataField.obj (some 0) "r", rest := "q" }
      (by decide)

/-- Helper: one authorized chunk call extends the buffer of its id by the
posted events, creating the session when absent. -/
theorem chunkRoute_buffered (secret : String) (incoming : Option String)
    (hcs : checkSecret secret incoming = true) (reg : Registry) (sid : String)
    (hsid : sid ≠ "") (evs : List EventRec) (now : Int) :
    buffered (chunkRoute secret incoming reg (some sid) (some evs) now).2 sid
      = buffered reg sid ++ evs := by
  unfold chunkRoute
  rw [hcs]
  simp only [Bool.true_eq_false, if_false]
  cases h : reg sid with
  | none => simp [hsid, buffered, h]
  | some s0 => simp [hsid, buffered, h]

/-- Helper: a sequence of authorized chunk calls extends the buffer by the
concatenation of the posted batches, in call order. -/
theorem chunkCalls_buffered (secret : String) (incoming : Option String)
    (hcs : checkSecret secret incoming = true) (sid : String) (hsid : sid ≠ "")
    (now : Int) :
    ∀ (batches : List (List EventRec)) (reg : Registry),
      buffered (chunkCalls secret incoming reg sid batches now) sid
        = buffered reg sid ++ batches.flatten := by
  intro batches
  induction batches with
  | nil => intro reg; simp [chunkCalls]
  | cons b bs ih =>
    intro reg
    show buffered
        (chunkCalls secret incoming
          (chunkRoute secret incoming reg (some sid) (some b) now).2 sid bs now) sid = _
    rw [ih]
    rw [chunkRoute_buffered secret incoming hcs reg sid hsid b now]
    simp

/-- C6: for a fresh session id, after any finite sequence of authorized
chunk calls the buffered events are exactly the concatenation of the posted
batches in arrival order — never reordered or deduplicated — so the
buffered count is the sum of the batch lengths. -/
theorem chunk_calls_buffer_join (secret : String) (incoming : Option String)
    (reg : Registry) (sid : String) (batches : List (List EventRec)) (now : Int)
    (hcs : checkSecret secret incoming = true) (hsid : sid ≠ "")
    (hfresh : reg sid = none) :
    buffered (chunkCalls secret incoming reg sid batches now) sid = batches.flatten
    ∧ (buffered (chunkCalls secret incoming reg sid batches now) sid).length
        = (batches.map List.length).sum := by
  have h := chunkCalls_buffered secret incoming hcs sid hsid now batches reg
  have hb : buffered reg sid = [] := by simp [buffered, hfresh]
  rw [hb, List.nil_append] at h
  refine ⟨h, ?_⟩
  rw [h, List.length_flatten]

/-- Witness for C6: two chunk calls of one and two events on a fresh id. -/
theorem chunk_calls_buffer_join_witness :
    buffered (chunkCalls "sec" (some "sec") (fun _ => none) "s1"
        [[{ timestamp := some 1, data := DataField.absent, rest := "" }],
         [{ timestamp := some 2, data := DataField.absent, rest := "" },
          { timestamp := some 3, data := DataField.absent, rest := "" }]] 0) "s1"
      = ([[{ timestamp := some 1, data := DataField.absent, rest := "" }],
          [{ timestamp := some 2, data := DataField.absent, rest := "" },
           { timestamp := some 3, data := DataField.absent, rest := "" }]] :
          List (List EventRec)).flatten
    ∧ (buffered (chunkCalls "sec" (some "sec") (fun _ => none) "s1"
        [[{ timestamp := some 1, data := DataField.absent, rest := "" }],
         [{ timestamp := some 2, data := DataField.absent, rest := "" },
          { timestamp := some 3, data := DataField.absent, rest := "" }]] 0) "s1").length
      = (([[{ timestamp := some 1, data := DataField.absent, rest := "" }],
           [{ timestamp := some 2, data := DataField.absent, rest := "" },
            { timestamp := some 3, data := DataField.absent, rest := "" }]] :
           List (List EventRec)).map List.length).sum :=
  chunk_calls_buffer_join "sec" (some "sec") (fun _ => none) "s1"
    [[{ timestamp := some 1, data := DataField.absent, rest := "" }],
     [{ timestamp := some 2, data := DataField.absent, rest := "" },
      { timestamp := some 3, data := DataField.absent, rest := "" }]] 0
    (by decide) (by decide) rfl

/-- C2 counterexample: with session s1 present and the Drive upload
failing, the finish route answers uploadError while s1 is still in the
registry with its buffered data — the session was not removed before the
Publisher call, and the buffered data is not gone on publish failure. -/
theorem finish_publish_failure_keeps_session :
    (finishRoute "sec" (some "sec") reg1 (some "s1") true false).1 = FinishResult.uploadError
    ∧ (finishRoute "sec" (some "sec") reg1 (some "s1") true false).2 "s1" = some sessA := by
  constructor <;> rfl

/-- C2 amended: in both finalize routes the session is removed from the
registry only after the Publisher call succeeds; when the publish fails the
route answers uploadError and the registry — hence the buffered data — is
unchanged, and only a successful publish leaves the id absent. -/
theorem finish_removes_session_only_after_publish (secret : String)
    (incoming : Option String) (reg : Registry) (sid : String) (s : SessionRec)
    (tok : String) (hcs : checkSecret secret incoming = true) (hsid : sid ≠ "")
    (hreg : reg sid = some s) (htok : s.token = some tok) (htok2 : tok ≠ "") :
    (finishRoute secret incoming reg (some sid) true false).1 = FinishResult.uploadError
    ∧ (finishRoute secret incoming reg (some sid) true false).2 = reg
    ∧ (finishRoute secret incoming reg (some sid) true true).2 sid = none
    ∧ (finishBeacon reg (some sid) (some tok) true false).1 = FinishResult.uploadError
    ∧ (finishBeacon reg (some sid) (some tok) true false).2 = reg
    ∧ (finishBeacon reg (some sid) (some tok) true true).2 sid = none := by
  have hget : getSessionByToken reg (some sid) (some tok) = some s := by
    unfold getSessionByToken
    rw [show Option.bind (some sid) reg = reg sid from rfl, hreg]
    simp [tokenFalsy, htok, htok2]
  refine ⟨?_, ?_, ?_, ?_, ?_, ?_⟩
  · unfold finishRoute; rw [hcs]; simp [hsid]
  · unfold finishRoute; rw [hcs]; simp [hsid]
  · unfold finishRoute; rw [hcs]; simp [hsid]
  · unfold finishBeacon; rw [hget]; simp
  · unfold finishBeacon; rw [hget]; simp
  · unfold finishBeacon; rw [hget]; simp

/-- Witness for the amended C2 at the concrete registry reg1. -/
theorem finish_removes_session_only_after_publish_witness :
    (finishRoute "sec" (some "sec") reg1 (some "s1") true false).1 = FinishResult.uploadError
    ∧ (finishRoute "sec" (some "sec") reg1 (some "s1") true false).2 = reg1
    ∧ (finishRoute "sec" (some "sec") reg1 (some "s1") true true).2 "s1" = none
    ∧ (finishBeacon reg1 (some "s1") (some "t1") true false).1 = FinishResult.uploadError
    ∧ (finishBeacon reg1 (some "s1") (some "t1") true false).2 = reg1
    ∧ (finishBeacon reg1 (some "s1") (some "t1") true true).2 "s1" = none :=
  finish_removes_session_only_after_publish "sec" (some "sec") reg1 "s1" sessA "t1"
    (by decide) (by decide) rfl rfl (by decide)

/-- C3 counterexample: after one successful finish for s1, a second finish
call with a valid secret succeeds with an empty artifact of zero events
instead of observing an unknown-session failure. -/
theorem second_finish_succeeds_with_empty_artifact :
    (finishRoute "sec" (some "sec")
        (finishRoute "sec" (some "sec") reg1 (some "s1") true true).2
        (some "s1") true true).1 = FinishResult.uploaded 0 := by rfl

/-- C3 amended: a successful finish removes the id from the registry, but a
second finish on the same lenient handler substitutes the empty default
session and succeeds, uploading an artifact of zero events; the strict
finish variant of src/unnamed/part_000 is the one that reports the
unknown-session failure on an absent id. -/
theorem double_finish_amended (secret : String) (incoming : Option String)
    (reg : Registry) (sid : String)
    (hcs : checkSecret secret incoming = true) (hsid : sid ≠ "") :
    (finishRoute secret incoming reg (some sid) true true).2 sid = none
    ∧ (finishRoute secret incoming
        (finishRoute secret incoming reg (some sid) true true).2
        (some sid) true true).1 = FinishResult.uploaded 0
    ∧ (finishStrict secret incoming
        (finishRoute secret incoming reg (some sid) true true).2
        (some sid) true).1 = StrictFinishResult.unknownSession := by
  have hdel : (finishRoute secret incoming reg (some sid) true true).2 sid = none := by
    unfold finishRoute
    rw [hcs]
    simp [hsid]
  refine ⟨hdel, ?_, ?_⟩
  · unfold finishRoute
    rw [hcs]
    simp [hsid, hdel, defaultSession]
  · unfold finishStrict
    rw [hcs]
    simp [hsid, hdel]

/-- Witness for the amended C3 at the concrete registry reg1. -/
theorem double_finish_amended_witness :
    (finishRoute "sec" (some "sec") reg1 (some "s1") true true).2 "s1" = none
    ∧ (finishRoute "sec" (some "sec")
        (finishRoute "sec" (some "sec") reg1 (some "s1") true true).2
        (some "s1") true true).1 = FinishResult.uploaded 0
    ∧ (finishStrict "sec" (some "sec")
        (finishRoute "sec" (some "sec") reg1 (some "s1") true true).2
        (some "s1") true).1 = StrictFinishResult.unknownSession :=
  double_finish_amended "sec" (some "sec") reg1 "s1" (by decide) (by decide)

/-- C4: a session whose last activity is older than the idle window is
absent from the registry after the sweep runs, and a subsequent finish for
its id under the strict variant observes the unknown-session failure. -/
theorem idle_sweep_then_unknown_session (secret : String) (incoming : Option String)
    (reg : Registry) (sid : String) (s : SessionRec) (now : Int)
    (hcs : checkSecret secret incoming = true) (hsid : sid ≠ "")
    (hreg : reg sid = some s) (hidle : now - lastActivity s > idleTimeoutMs) :
    sweepExpired reg now sid = none
    ∧ (finishStrict secret incoming (sweepExpired reg now) (some sid) true).1
        = StrictFinishResult.unknownSession := by
  have hswept : sweepExpired reg now sid = none := by
    unfold sweepExpired
    rw [hreg]
    simp [hidle]
  refine ⟨hswept, ?_⟩
  unfold finishStrict
  rw [hcs]
  simp [hsid, hswept]

/-- Witness for C4: sessA started at 0 with no chunk activity, swept at
time 1800001, one tick past the idle window. -/
theorem idle_sweep_then_unknown_session_witness :
    sweepExpired reg1 1800001 "s1" = none
    ∧ (finishStrict "sec" (some "sec") (sweepExpired reg1 1800001) (some "s1") true).1
        = StrictFinishResult.unknownSession :=
  idle_sweep_then_unknown_session "sec" (some "sec") reg1 "s1" sessA 1800001
    (by decide) (by decide) rfl (by decide)

/-- C9: a beacon request carrying the token of one session but a sessionId
naming a different session, or no session, is answered unauthorized by both
beacon routes and leaves the registry exactly as it was, provided the
minted tokens are distinct across sessions. -/
theorem beacon_wrong_session_unauthorized (reg : Registry) (kA : String)
    (sA : SessionRec) (tok : String) (sid : Option String)
    (events : Option (List EventRec)) (now : Int) (dc pk : Bool)
    (hdist : TokensDistinct reg) (hA : reg kA = some sA)
    (htok : sA.token = some tok) (hsid : sid ≠ some kA) :
    (chunkBeacon reg sid (some tok) events now).1 = ChunkResult.unauthorized
    ∧ (chunkBeacon reg sid (some tok) events now).2 = reg
    ∧ (finishBeacon reg sid (some tok) dc pk).1 = FinishResult.unauthorized
    ∧ (finishBeacon reg sid (some tok) dc pk).2 = reg := by
  have hget : getSessionByToken reg sid (some tok) = none := by
    unfold getSessionByToken
    cases hs : sid.bind reg with
    | none => rfl
    | some sB =>
      obtain ⟨kB, hkB, hregB⟩ : ∃ kB, sid = some kB ∧ reg kB = some sB := by
        cases sid with
        | none => simp at hs
        | some kB => exact ⟨kB, rfl, by simpa using hs⟩
      have hne : sB.token ≠ some tok := by
        intro he
        exact hsid (by rw [hkB, hdist kB kA sB sA tok hregB hA he htok])
      simp [hne]
  refine ⟨?_, ?_, ?_, ?_⟩
  · unfold chunkBeacon; rw [hget]
  · unfold chunkBeacon; rw [hget]
  · unfold finishBeacon; rw [hget]
  · unfold finishBeacon; rw [hget]

/-- Witness for C9: the registry reg1 holds only s1 with token t1; a beacon
request with token t1 but sessionId s2 is unauthorized and mutates
nothing. -/
theorem beacon_wrong_session_unauthorized_witness :
    (chunkBeacon reg1 (some "s2") (some "t1")
        (some [{ timestamp := some 9, data := DataField.absent, rest := "" }]) 5).1
      = ChunkResult.unauthorized
    ∧ (chunkBeacon reg1 (some "s2") (some "t1")
        (some [{ timestamp := some 9, data := DataField.absent, rest := "" }]) 5).2 = reg1
    ∧ (finishBeacon reg1 (some "s2") (some "t1") true true).1 = FinishResult.unauthorized
    ∧ (finishBeacon reg1 (some "s2") (some "t1") true true).2 = reg1 := by
  have hdist : TokensDistinct reg1 := by
    intro k1 k2 s1 s2 t h1 h2 _ _
    by_cases e1 : k1 = "s1"
    · by_cases e2 : k2 = "s1"
      · rw [e1, e2]
      · simp [reg1, e2] at h2
    · simp [reg1, e1] at h1
  exact beacon_wrong_session_unauthorized reg1 "s1" sessA "t1" (some "s2")
    (some [{ timestamp := some 9, data := DataField.absent, rest := "" }]) 5 true true
    hdist rfl rfl (by decide)

end Rrweb
